import Mathlib

/-!
Shallow embedding of the pause/resume coordination layer of
`browser-use-gemini` (files `browser_use_gemini_pause.py` and `utils.py`).

Conventions of the embedding:
* Python strings are Lean `String`; `needle in hay` is `strContains hay needle`
  computed over the character lists; `s.lower()` is `lowerStr`.
* The asynchronous predicates `(agent_obj) -> bool` read only
  `agent_obj.browser_context.current_url` and
  `await agent_obj.browser_context.get_page_html()`, so they are embedded as
  pure functions over `AgentState` (url + page html).
* `asyncio.get_event_loop().time()` (a float) is modelled as a rational
  timestamp supplied by the caller; the event-loop clock is monotone, which
  appears as a non-decreasing-timestamps hypothesis where needed.
* Exceptions are `Except`: a method that can raise returns its updated object
  state together with an `Except` outcome, mirroring that the Python object
  keeps the field writes performed before the raise.
-/

/-- Does `hay` start with `needle` (character lists)? -/
def charsStartWith : List Char → List Char → Bool
  | [], _ => true
  | _ :: _, [] => false
  | a :: as, b :: bs => a == b && charsStartWith as bs

/-- Does `needle` occur contiguously inside `hay` (character lists)?
Embeds Python `needle in hay`. -/
def charsContain (needle : List Char) : List Char → Bool
  | [] => charsStartWith needle []
  | c :: cs => charsStartWith needle (c :: cs) || charsContain needle cs

/-- Python `needle in hay` on strings. -/
def strContains (hay needle : String) : Bool :=
  charsContain needle.toList hay.toList

/-- Python `s.lower()` (the sources only ever lowercase ASCII markup). -/
def lowerStr (s : String) : String :=
  ⟨s.data.map Char.toLower⟩

/-- The read-only view of the agent the condition predicates use:
`browser_context.current_url` and `get_page_html()`. -/
structure AgentState where
  current_url : String
  page_html : String
deriving DecidableEq, Repr

namespace PauseConditions

/-- Embeds `PauseConditions.password_field`: the Python check `type="password" in page_content`
(note: no `.lower()` in the source — a case-sensitive check). -/
def password_field (a : AgentState) : Bool :=
  strContains a.page_html "type=\"password\""

/-- Embeds `PauseConditions.login_page`:
any of the terms login, signin, auth contained in `url.lower()`. -/
def login_page (a : AgentState) : Bool :=
  ["login", "signin", "auth"].any (fun term => strContains (lowerStr a.current_url) term)

end PauseConditions

/-- Keyword list of `AdvancedPauseConditions.payment_form`. -/
def paymentIndicators : List String :=
  ["credit card", "debit card", "card number", "cvv", "cvc",
   "expiration date", "expiry date", "billing address"]

/-- Keyword list of `AdvancedPauseConditions.two_factor_auth`. -/
def twoFactorIndicators : List String :=
  ["two-factor", "two factor", "2fa", "verification code",
   "security code", "authenticate", "verification"]

/-- Keyword list of `AdvancedPauseConditions.captcha`. -/
def captchaIndicators : List String :=
  ["captcha", "recaptcha", "i\x27m not a robot", "im not a robot",
   "verify you\x27re human", "verify youre human"]

/-- Keyword list of `AdvancedPauseConditions.personal_information_form`. -/
def personalInfoIndicators : List String :=
  ["social security", "ssn", "date of birth", "birthdate",
   "passport", "driver\x27s license", "drivers license",
   "identity verification", "government id"]

namespace AdvancedPauseConditions

/-- Embeds `AdvancedPauseConditions.payment_form`: checks only the page content
(`page_content.lower()`); the URL is not consulted in the source. -/
def payment_form (a : AgentState) : Bool :=
  paymentIndicators.any (fun ind => strContains (lowerStr a.page_html) ind)

/-- Embeds `AdvancedPauseConditions.two_factor_auth`:
`any(indicator in url.lower() or indicator in page_content.lower() ...)`. -/
def two_factor_auth (a : AgentState) : Bool :=
  twoFactorIndicators.any (fun ind =>
    strContains (lowerStr a.current_url) ind || strContains (lowerStr a.page_html) ind)

/-- Embeds `AdvancedPauseConditions.captcha`: keyword check on `page_content.lower()`. -/
def captcha (a : AgentState) : Bool :=
  captchaIndicators.any (fun ind => strContains (lowerStr a.page_html) ind)

/-- Embeds `AdvancedPauseConditions.personal_information_form`: keyword check on
`page_content.lower()`. -/
def personal_information_form (a : AgentState) : Bool :=
  personalInfoIndicators.any (fun ind => strContains (lowerStr a.page_html) ind)

end AdvancedPauseConditions

/-- The errors `UserInputHandler.get_input` and the console read can raise. -/
inductive InputError where
  /-- Embeds `NotImplementedError` for the "web" channel. -/
  | notImplemented : InputError
  /-- Embeds `ValueError(f"Unknown input method: ...")` with the offending kind. -/
  | valueError : String → InputError
  /-- A failure of the blocking console read itself (e.g. `EOFError`). -/
  | channelError : InputError
deriving DecidableEq, Repr

/-- Embeds `UserInputHandler`: holds the channel kind chosen at construction. -/
structure UserInputHandler where
  input_method : String
deriving DecidableEq, Repr

/-- Embeds `UserInputHandler.__init__`: stores `input_method` and performs no
validation — construction always succeeds. -/
def UserInputHandler.init (input_method : String) : UserInputHandler :=
  ⟨input_method⟩

/-- Embeds `UserInputHandler.get_input`. `console` is the outcome of the blocking
`input(prompt)` read (a line, or a read failure); it is consulted only on the
"console" path. The `prompt` argument does not influence the result. -/
def UserInputHandler.get_input (h : UserInputHandler) (prompt : String)
    (console : Except InputError String) : Except InputError String :=
  if h.input_method = "console" then console
  else if h.input_method = "web" then .error .notImplemented
  else .error (.valueError h.input_method)

/-- One entry of `PauseManager.pause_history` (`utils.record_pause`). -/
structure PauseEvent where
  url : String
  reason : String
  input_provided : Bool
  timestamp : ℚ
deriving DecidableEq, Repr

/-- Embeds `utils.PauseManager`: the append-only pause history. `input_history` is
initialised to an empty dict in the source and never written. -/
structure PauseManager where
  pause_history : List PauseEvent
  input_history : List (String × String)
deriving DecidableEq, Repr

/-- Embeds `PauseManager.__init__`. -/
def PauseManager.init : PauseManager := ⟨[], []⟩

/-- Embeds `PauseManager.record_pause(url, reason, user_input)` with the event-loop
time `now` made explicit. The source computes a `sanitized_input` string but
never stores it; the stored event holds only `bool(user_input)`,
i.e. non-emptiness of the input. -/
def PauseManager.record_pause (m : PauseManager) (url reason user_input : String)
    (now : ℚ) : PauseManager :=
  { m with pause_history :=
      m.pause_history ++ [⟨url, reason, user_input != "", now⟩] }

/-- Embeds `PauseManager.get_pause_history`. -/
def PauseManager.get_pause_history (m : PauseManager) : List PauseEvent :=
  m.pause_history

/-- The JSON values `json.dump` can produce for the pause history. -/
inductive Json where
  | str : String → Json
  | bool : Bool → Json
  | num : ℚ → Json
  | arr : List Json → Json
  | obj : List (String × Json) → Json

/-- The JSON object `record_pause` builds for one event (field order as in
the source dict literal). -/
def eventToJson (e : PauseEvent) : Json :=
  .obj [("url", .str e.url), ("reason", .str e.reason),
        ("input_provided", .bool e.input_provided),
        ("timestamp", .num e.timestamp)]

/-- Embeds `PauseManager.save_history`: `json.dump(self.pause_history, f, indent=2)`
writes the history as one top-level JSON array. -/
def PauseManager.save_history (m : PauseManager) : Json :=
  .arr (m.pause_history.map eventToJson)

/-- Field lookup in a JSON object (first binding wins, as in JSON parsing). -/
def jsonField (k : String) : List (String × Json) → Option Json
  | [] => none
  | (k2, v) :: rest => if k2 = k then some v else jsonField k rest

/-- Reading one pause event back from a JSON object. -/
def eventOfJson : Json → Option PauseEvent
  | .obj fields =>
    match jsonField "url" fields, jsonField "reason" fields,
          jsonField "input_provided" fields, jsonField "timestamp" fields with
    | some (.str u), some (.str r), some (.bool b), some (.num t) =>
        some ⟨u, r, b, t⟩
    | _, _, _, _ => none
  | _ => none

/-- Reading back the elements of the saved array, in order; fails if any
element is not a well-formed event object. -/
def decodeEvents : List Json → Option (List PauseEvent)
  | [] => some []
  | j :: js =>
    match eventOfJson j, decodeEvents js with
    | some e, some es => some (e :: es)
    | _, _ => none

/-- Reading back a saved history: a top-level array of event objects. -/
def parseHistory : Json → Option (List PauseEvent)
  | .arr js => decodeEvents js
  | _ => none

/-- One registered pause condition: the tuple `(condition, message)` appended
by `add_pause_condition`. -/
structure PauseCondition where
  cond : AgentState → Bool
  message : String

/-- Embeds `PauseHook` mutable state: `paused`, the ordered `pause_conditions`,
`user_input`, and the `input_handler` chosen at construction. (`self.agent`
is only used by `register_hooks`, which is outside the evaluation path.) -/
structure PauseHook where
  paused : Bool
  pause_conditions : List PauseCondition
  user_input : Option String
  input_handler : UserInputHandler

/-- Embeds `PauseHook.__init__`: `paused = False`, no conditions, no captured input. -/
def PauseHook.init (input_handler : UserInputHandler) : PauseHook :=
  ⟨false, [], none, input_handler⟩

/-- Embeds `PauseHook.add_pause_condition`: appends `(condition, message)`. -/
def PauseHook.add_pause_condition (h : PauseHook) (cond : AgentState → Bool)
    (message : String) : PauseHook :=
  { h with pause_conditions := h.pause_conditions ++ [⟨cond, message⟩] }

/-- Outcome of `PauseHook.handle_pause`: the state of the hook when the call
returns or raises, the banner messages printed, and the `Except` outcome. -/
structure HandleResult where
  hook : PauseHook
  displayed : List String
  result : Except InputError Unit

/-- Embeds `PauseHook.handle_pause`: prints the pause banner, awaits
`input_handler.get_input`, stores the input and clears `paused`. If
`get_input` raises, the raise happens before the `self.user_input` and
`self.paused = False` assignments, so both fields keep their prior values. -/
def PauseHook.handle_pause (h : PauseHook) (message : String)
    (console : Except InputError String) : HandleResult :=
  match h.input_handler.get_input "Enter your input: " console with
  | .error e => ⟨h, [message], .error e⟩
  | .ok s => ⟨{ h with user_input := some s, paused := false }, [message], .ok ()⟩

/-- Observable outcome of one `check_pause_condition` call: the hook state,
the agent state when the call returns (the body performs no write to
`agent_obj`), the positions of the condition predicates that were invoked (in
invocation order), the banners printed, the `PauseEvent`s appended to any
pause history during the call (the body contains no `record_pause` call, so
this trace component is built empty on every path), and the call outcome. -/
structure EvalResult where
  hook : PauseHook
  agent : AgentState
  invoked : List Nat
  displayed : List String
  recorded : List PauseEvent
  result : Except InputError Unit

/-- The `for condition, message in self.pause_conditions` loop of
`check_pause_condition`, carrying the position `i` of the head of the
remaining list. On the first true predicate: `self.paused = True`, then
`handle_pause`, then `break` (an exception from `handle_pause` also ends the
loop). -/
def checkFrom (h : PauseHook) (st : AgentState) (console : Except InputError String) :
    List PauseCondition → Nat → EvalResult
  | [], _ => ⟨h, st, [], [], [], .ok ()⟩
  | c :: rest, i =>
    if c.cond st then
      let hr := PauseHook.handle_pause { h with paused := true } c.message console
      ⟨hr.hook, st, [i], hr.displayed, [], hr.result⟩
    else
      let r := checkFrom h st console rest (i + 1)
      { r with invoked := i :: r.invoked }

/-- Embeds `PauseHook.check_pause_condition(agent_obj)` as a function of the hook
state, the agent state, and the console read outcome used if a pause occurs. -/
def PauseHook.check_pause_condition (h : PauseHook) (st : AgentState)
    (console : Except InputError String) : EvalResult :=
  checkFrom h st console h.pause_conditions 0

/-- Projection of a stored pause event on its non-timestamp fields. -/
def PauseEvent.sansTimestamp (e : PauseEvent) : String × String × Bool :=
  (e.url, e.reason, e.input_provided)

/-- Recording a batch of `(url, reason, user_input, now)` calls in order. -/
def recordAll (m : PauseManager) : List (String × String × String × ℚ) → PauseManager
  | [] => m
  | (u, r, i, t) :: rest => recordAll (m.record_pause u r i t) rest

/-- A condition predicate that always fires (used in concrete runs). -/
def condTrue : AgentState → Bool := fun _ => true

/-- A condition predicate that never fires (used in concrete runs). -/
def condFalse : AgentState → Bool := fun _ => false

/-- The default console input handler. -/
def consoleHandler : UserInputHandler := UserInputHandler.init "console"

/-- A hook with a single always-firing condition. -/
def hookOne : PauseHook :=
  (PauseHook.init consoleHandler).add_pause_condition condTrue
    "Password field detected"

/-- A hook whose conditions fire first at position 1. -/
def hookThree : PauseHook :=
  ((PauseHook.init consoleHandler).add_pause_condition condFalse "a"
    |>.add_pause_condition condTrue "b"
    |>.add_pause_condition condFalse "c")

/-- A concrete agent state for the concrete runs. -/
def stDemo : AgentState :=
  ⟨"https://demo.example/login", "<input type=\"password\">"⟩

/-! Claim C6: case-insensitivity of the detection predicates -/

/-- C6 counterexample: `password_field` is not case-insensitive. The two page
contents differ only in letter case (their lowerings agree), the page content
itself is unchanged otherwise, yet `password_field` answers `true` on the
lowercase page and `false` on the uppercase one, because the source compares
the literal `type="password"` against the raw (un-lowered) page content. -/
theorem C6_counterexample :
    lowerStr "TYPE=\"PASSWORD\"" = lowerStr "type=\"password\""
    ∧ PauseConditions.password_field ⟨"https://a.example", "type=\"password\""⟩ = true
    ∧ PauseConditions.password_field ⟨"https://a.example", "TYPE=\"PASSWORD\""⟩ = false := by
  refine ⟨by decide, by decide, by decide⟩

/-- C6 (amended): every detection predicate except `password_field` —
`login_page`, `payment_form`, `two_factor_auth`, `captcha`,
`personal_information_form` — is case-insensitive: on two states whose URLs
and page contents agree up to letter case, each returns the same boolean.
(`password_field` compares against the raw content and is case-sensitive,
see the counterexample.) -/
theorem C6_amended (u₁ u₂ c₁ c₂ : String)
    (hu : lowerStr u₁ = lowerStr u₂) (hc : lowerStr c₁ = lowerStr c₂) :
    PauseConditions.login_page ⟨u₁, c₁⟩ = PauseConditions.login_page ⟨u₂, c₂⟩
    ∧ AdvancedPauseConditions.payment_form ⟨u₁, c₁⟩
        = AdvancedPauseConditions.payment_form ⟨u₂, c₂⟩
    ∧ AdvancedPauseConditions.two_factor_auth ⟨u₁, c₁⟩
        = AdvancedPauseConditions.two_factor_auth ⟨u₂, c₂⟩
    ∧ AdvancedPauseConditions.captcha ⟨u₁, c₁⟩
        = AdvancedPauseConditions.captcha ⟨u₂, c₂⟩
    ∧ AdvancedPauseConditions.personal_information_form ⟨u₁, c₁⟩
        = AdvancedPauseConditions.personal_information_form ⟨u₂, c₂⟩ := by
  refine ⟨?_, ?_, ?_, ?_, ?_⟩ <;>
    simp only [PauseConditions.login_page, AdvancedPauseConditions.payment_form,
      AdvancedPauseConditions.two_factor_auth, AdvancedPauseConditions.captcha,
      AdvancedPauseConditions.personal_information_form, hu, hc]

/-- C6 witness: the amended claim at a concrete pair of states differing only
in letter case. -/
theorem C6_witness :
    PauseConditions.login_page ⟨"https://X.example/LOGIN", "CVV here"⟩
      = PauseConditions.login_page ⟨"https://x.example/login", "cvv HERE"⟩
    ∧ AdvancedPauseConditions.payment_form ⟨"https://X.example/LOGIN", "CVV here"⟩
        = AdvancedPauseConditions.payment_form ⟨"https://x.example/login", "cvv HERE"⟩
    ∧ AdvancedPauseConditions.two_factor_auth ⟨"https://X.example/LOGIN", "CVV here"⟩
        = AdvancedPauseConditions.two_factor_auth ⟨"https://x.example/login", "cvv HERE"⟩
    ∧ AdvancedPauseConditions.captcha ⟨"https://X.example/LOGIN", "CVV here"⟩
        = AdvancedPauseConditions.captcha ⟨"https://x.example/login", "cvv HERE"⟩
    ∧ AdvancedPauseConditions.personal_information_form
          ⟨"https://X.example/LOGIN", "CVV here"⟩
        = AdvancedPauseConditions.personal_information_form
          ⟨"https://x.example/login", "cvv HERE"⟩ :=
  C6_amended "https://X.example/LOGIN" "https://x.example/login"
    "CVV here" "cvv HERE" (by decide) (by decide)

/-! Claim C7: `payment_form` and the URL -/

/-- C7 counterexample: a state whose URL contains the payment keyword `cvv`
but whose page content contains no keyword at all. The claim says
`payment_form` returns true on it; the source checks only
`page_content.lower()` and returns false. -/
theorem C7_counterexample :
    strContains (lowerStr "https://shop.example/cvv") "cvv" = true
    ∧ AdvancedPauseConditions.payment_form ⟨"https://shop.example/cvv", ""⟩ = false := by
  refine ⟨by decide, by decide⟩

/-- C7 (amended): `payment_form(state)` is true iff the page content (not the
URL) contains at least one keyword of the fixed payment/billing/card set: it
is invariant under changing the URL, it is characterised by a lowered-content
keyword search, and the literal case `"Please enter your CVV"` in the content
makes it true. -/
theorem C7_amended :
    (∀ u₁ u₂ c, AdvancedPauseConditions.payment_form ⟨u₁, c⟩
        = AdvancedPauseConditions.payment_form ⟨u₂, c⟩)
    ∧ (∀ u c, AdvancedPauseConditions.payment_form ⟨u, c⟩ = true
        ↔ ∃ ind ∈ paymentIndicators, strContains (lowerStr c) ind = true)
    ∧ AdvancedPauseConditions.payment_form
        ⟨"https://shop.example", "Please enter your CVV"⟩ = true := by
  refine ⟨fun u₁ u₂ c => rfl, fun u c => ?_, by decide⟩
  simp [AdvancedPauseConditions.payment_form, List.any_eq_true]

/-! Claim C5: unknown input-channel kind -/

/-- C5 counterexample: constructing a `UserInputHandler` with the unknown
kind `"smoke"` does not fail — `__init__` stores the kind without validation
and yields a usable handler — and the configuration error (`ValueError`)
surfaces only at the first `get_input` call, contradicting the claim that the
failure happens at construction time and is not deferred. -/
theorem C5_counterexample :
    UserInputHandler.init "smoke" = ⟨"smoke"⟩
    ∧ UserInputHandler.get_input (UserInputHandler.init "smoke")
        "Enter your input: " (.ok "a line")
      = .error (.valueError "smoke") := by
  refine ⟨rfl, rfl⟩

/-- C5 (amended): an unknown input-channel kind is accepted silently at
construction; the failure is deferred to the first `get_input` call, which
raises `ValueError` naming the kind, whatever the prompt and however the
console read would have behaved. -/
theorem C5_amended (m prompt : String) (console : Except InputError String)
    (hc : m ≠ "console") (hw : m ≠ "web") :
    UserInputHandler.init m = ⟨m⟩
    ∧ UserInputHandler.get_input (UserInputHandler.init m) prompt console
        = .error (.valueError m) := by
  refine ⟨rfl, ?_⟩
  simp [UserInputHandler.get_input, UserInputHandler.init, hc, hw]

/-- C5 witness: the amended claim at the concrete unknown kind `"smoke"`. -/
theorem C5_witness :
    UserInputHandler.init "smoke" = ⟨"smoke"⟩
    ∧ UserInputHandler.get_input (UserInputHandler.init "smoke")
        "p" (.error .channelError)
      = .error (.valueError "smoke") :=
  C5_amended "smoke" "p" (.error .channelError) (by decide) (by decide)

/-! Claim C8: history sanitization -/

/-- C8: the `input_provided` field of the stored `PauseEvent` is the boolean
non-emptiness of the user input, and the literal input string is never
retained: `record_pause` depends on the input only through its emptiness, so
two calls with the same url and reason and any two non-empty inputs produce
histories that agree except possibly in the timestamp, and agree exactly when
the timestamps agree. -/
theorem C8_sanitization (m : PauseManager) (u r i₁ i₂ : String) (t₁ t₂ : ℚ)
    (h₁ : i₁ ≠ "") (h₂ : i₂ ≠ "") :
    (m.record_pause u r i₁ t₁).pause_history = m.pause_history ++ [⟨u, r, true, t₁⟩]
    ∧ (m.record_pause u r i₁ t₁).pause_history.map PauseEvent.sansTimestamp
        = (m.record_pause u r i₂ t₂).pause_history.map PauseEvent.sansTimestamp
    ∧ m.record_pause u r i₁ t₁ = m.record_pause u r i₂ t₁ := by
  have e₁ : (i₁ != "") = true := by simp [bne_iff_ne, h₁]
  have e₂ : (i₂ != "") = true := by simp [bne_iff_ne, h₂]
  refine ⟨?_, ?_, ?_⟩ <;>
    simp [PauseManager.record_pause, PauseEvent.sansTimestamp, e₁, e₂]

/-- C8 witness: two different non-empty inputs (one resembling a password)
recorded at the same url/reason. -/
theorem C8_witness :
    ((PauseManager.init).record_pause "https://a.example" "pw" "hunter2" 5).pause_history
      = [] ++ [⟨"https://a.example", "pw", true, 5⟩]
    ∧ ((PauseManager.init).record_pause "https://a.example" "pw" "hunter2" 5).pause_history.map
          PauseEvent.sansTimestamp
        = ((PauseManager.init).record_pause "https://a.example" "pw" "s3cret!" 7).pause_history.map
          PauseEvent.sansTimestamp
    ∧ (PauseManager.init).record_pause "https://a.example" "pw" "hunter2" 5
        = (PauseManager.init).record_pause "https://a.example" "pw" "s3cret!" 5 :=
  C8_sanitization PauseManager.init "https://a.example" "pw" "hunter2" "s3cret!" 5 7
    (by decide) (by decide)

/-! Claim C1: pause events and the evaluate call -/

/-- C1 counterexample: a concrete `check_pause_condition` call in which a
registered condition matches (the predicate at position 0 is invoked and
fires), the pause completes the full `Paused -> Running` cycle with the input
`"hunter2"` captured, and yet no `PauseEvent` is appended during the call:
the body of `check_pause_condition`/`handle_pause` contains no call to
`PauseManager.record_pause`, contradicting "exactly one PauseEvent is
appended ... at the Paused -> Running transition". -/
theorem C1_counterexample :
    (hookOne.check_pause_condition stDemo (.ok "hunter2")).invoked = [0]
    ∧ (hookOne.check_pause_condition stDemo (.ok "hunter2")).result = .ok ()
    ∧ (hookOne.check_pause_condition stDemo (.ok "hunter2")).hook.user_input
        = some "hunter2"
    ∧ (hookOne.check_pause_condition stDemo (.ok "hunter2")).recorded = [] := by
  refine ⟨rfl, rfl, rfl, rfl⟩

/-- On every path of the condition loop, no `PauseEvent` is recorded. -/
theorem checkFrom_recorded (st : AgentState) (console : Except InputError String) :
    ∀ (conds : List PauseCondition) (h : PauseHook) (i : Nat),
      (checkFrom h st console conds i).recorded = []
  | [], _, _ => rfl
  | c :: rest, h, i => by
    by_cases hc : c.cond st = true
    · simp [checkFrom, hc]
    · simp only [Bool.not_eq_true] at hc
      simp [checkFrom, hc, checkFrom_recorded st console rest h (i + 1)]

/-- C1 (amended): `check_pause_condition` itself never appends a `PauseEvent`
to any pause history — on every call, matched condition or not, the set of
events recorded during the call is empty. Appending happens only through an
explicit `PauseManager.record_pause` call, which appends exactly one event
whose `url` and `reason` are the given arguments, whose `input_provided` is
the non-emptiness of the given input, and whose timestamp is the clock value
at the call. -/
theorem C1_amended :
    (∀ (h : PauseHook) (st : AgentState) (console : Except InputError String),
      (h.check_pause_condition st console).recorded = [])
    ∧ (∀ (m : PauseManager) (u r i : String) (t : ℚ),
      (m.record_pause u r i t).pause_history
        = m.pause_history ++ [⟨u, r, i != "", t⟩]) := by
  constructor
  · intro h st console
    exact checkFrom_recorded st console h.pause_conditions h 0
  · intro m u r i t
    rfl

/-! Claim C2: short-circuit evaluation -/

/-- The condition loop over `pre ++ c :: post`, with every predicate of `pre`
false at `st` and `c` true, invokes exactly the predicates at positions
`i, i+1, ..., i + pre.length` (in order). -/
theorem checkFrom_invoked (st : AgentState) (console : Except InputError String)
    (c : PauseCondition) (post : List PauseCondition) (hc : c.cond st = true) :
    ∀ (pre : List PauseCondition) (h : PauseHook) (i : Nat),
      (∀ p ∈ pre, p.cond st = false) →
      (checkFrom h st console (pre ++ c :: post) i).invoked
        = List.range' i (pre.length + 1)
  | [], h, i, _ => by
    simp [checkFrom, hc, List.range'_succ]
  | p :: pre, h, i, hpre => by
    have hp : p.cond st = false := hpre p (by simp)
    have ih := checkFrom_invoked st console c post hc pre h (i + 1)
      (fun q hq => hpre q (by simp [hq]))
    simp [checkFrom, hp, ih, List.range'_succ]

/-- C2: short-circuit. If the ordered condition sequence of the hook is
`pre ++ c :: post` where every predicate in `pre` (positions `0..k-1`,
`k = pre.length`) is false at the given state and `c` (position `k`) is true,
then `check_pause_condition` invokes exactly the predicates at positions
`0..k` in order — so no predicate at a position greater than `k` is invoked. -/
theorem C2_short_circuit (h : PauseHook) (st : AgentState)
    (console : Except InputError String)
    (pre : List PauseCondition) (c : PauseCondition) (post : List PauseCondition)
    (hseq : h.pause_conditions = pre ++ c :: post)
    (hpre : ∀ p ∈ pre, p.cond st = false) (hc : c.cond st = true) :
    (h.check_pause_condition st console).invoked = List.range (pre.length + 1) := by
  show (checkFrom h st console h.pause_conditions 0).invoked = _
  rw [hseq, checkFrom_invoked st console c post hc pre h 0 hpre,
    List.range_eq_range']

/-- C2 witness: a three-condition hook whose predicate first fires at
position 1 invokes exactly positions 0 and 1. -/
theorem C2_witness :
    (hookThree.check_pause_condition stDemo (.ok "x")).invoked = List.range 2 :=
  C2_short_circuit hookThree stDemo (.ok "x")
    [⟨condFalse, "a"⟩] ⟨condTrue, "b"⟩ [⟨condFalse, "c"⟩]
    (by rfl) (by intro p hp; simp at hp; rw [hp]; rfl) (by rfl)

/-! Claims C3, C4, C10: the pause state machine -/

/-- If `handle_pause` raises, the raise came from `get_input`, before the
`user_input`/`paused` assignments: the hook is returned unchanged. -/
theorem handle_pause_error (h : PauseHook) (msg : String)
    (console : Except InputError String) (e : InputError)
    (he : (h.handle_pause msg console).result = .error e) :
    (h.handle_pause msg console).hook = h := by
  unfold PauseHook.handle_pause at he ⊢
  cases hg : h.input_handler.get_input "Enter your input: " console
  case error a => rfl
  case ok a => rw [hg] at he; simp at he

/-- If `handle_pause` returns normally, it has executed `self.paused = False`. -/
theorem handle_pause_ok (h : PauseHook) (msg : String)
    (console : Except InputError String)
    (hok : (h.handle_pause msg console).result = .ok ()) :
    (h.handle_pause msg console).hook.paused = false := by
  unfold PauseHook.handle_pause at hok ⊢
  cases hg : h.input_handler.get_input "Enter your input: " console
  case error a => rw [hg] at hok; simp at hok
  case ok a => rfl

/-- Lemma: `handle_pause` writes only `user_input` and `paused`: the condition list
and the input handler of the hook are untouched on both outcomes. -/
theorem handle_pause_frame (h : PauseHook) (msg : String)
    (console : Except InputError String) :
    (h.handle_pause msg console).hook.pause_conditions = h.pause_conditions
    ∧ (h.handle_pause msg console).hook.input_handler = h.input_handler := by
  unfold PauseHook.handle_pause
  cases h.input_handler.get_input "Enter your input: " console <;> simp

/-- A normally returning condition loop leaves `paused` false when it was
false on entry (no-match path keeps it, match path clears it in
`handle_pause`). -/
theorem checkFrom_ok_paused (st : AgentState) (console : Except InputError String) :
    ∀ (conds : List PauseCondition) (h : PauseHook) (i : Nat),
      h.paused = false →
      (checkFrom h st console conds i).result = .ok () →
      (checkFrom h st console conds i).hook.paused = false
  | [], _, _, h0, _ => h0
  | c :: rest, h, i, h0, hres => by
    by_cases hc : c.cond st = true
    · simp only [checkFrom, hc, if_true] at hres ⊢
      exact handle_pause_ok _ _ _ hres
    · simp only [Bool.not_eq_true] at hc
      simp only [checkFrom, hc, Bool.false_eq_true, if_false] at hres ⊢
      exact checkFrom_ok_paused st console rest h (i + 1) h0 hres

/-- A condition loop that raises did so inside `handle_pause` after setting
`self.paused = True`, and nothing after the raise runs: the hook is exactly
the entry hook with `paused := true`. -/
theorem checkFrom_error_hook (st : AgentState) (console : Except InputError String) :
    ∀ (conds : List PauseCondition) (h : PauseHook) (i : Nat) (e : InputError),
      (checkFrom h st console conds i).result = .error e →
      (checkFrom h st console conds i).hook = { h with paused := true }
  | [], _, _, _, hres => by simp [checkFrom] at hres
  | c :: rest, h, i, e, hres => by
    by_cases hc : c.cond st = true
    · simp only [checkFrom, hc, if_true] at hres ⊢
      exact handle_pause_error _ _ _ e hres
    · simp only [Bool.not_eq_true] at hc
      simp only [checkFrom, hc, Bool.false_eq_true, if_false] at hres ⊢
      exact checkFrom_error_hook st console rest h (i + 1) e hres

/-- The condition loop changes no hook field other than `paused` and
`user_input`, and performs no write to the agent state. -/
theorem checkFrom_frame (st : AgentState) (console : Except InputError String) :
    ∀ (conds : List PauseCondition) (h : PauseHook) (i : Nat),
      (checkFrom h st console conds i).agent = st
      ∧ (checkFrom h st console conds i).hook.pause_conditions = h.pause_conditions
      ∧ (checkFrom h st console conds i).hook.input_handler = h.input_handler
  | [], _, _ => ⟨rfl, rfl, rfl⟩
  | c :: rest, h, i => by
    by_cases hc : c.cond st = true
    · simp only [checkFrom, hc, if_true]
      exact ⟨trivial, (handle_pause_frame _ _ _).1, (handle_pause_frame _ _ _).2⟩
    · simp only [Bool.not_eq_true] at hc
      simp only [checkFrom, hc, Bool.false_eq_true, if_false]
      exact checkFrom_frame st console rest h (i + 1)

/-- C3: a freshly constructed hook starts with `paused = false`, and whenever
`check_pause_condition` is entered with `paused = false` and returns
normally, `paused` is false again on exit — whether or not a pause occurred
during the call. Hence `paused` is false at the start and end of every step
of a run whose evaluate calls all return normally. -/
theorem C3_single_pause_cycle (h : PauseHook) (st : AgentState)
    (console : Except InputError String)
    (h0 : h.paused = false)
    (hok : (h.check_pause_condition st console).result = .ok ()) :
    (h.check_pause_condition st console).hook.paused = false
    ∧ ∀ ih : UserInputHandler, (PauseHook.init ih).paused = false :=
  ⟨checkFrom_ok_paused st console h.pause_conditions h 0 h0 hok,
   fun _ => rfl⟩

/-- C3 witness: a concrete evaluate call in which a pause occurs (position 1
fires) and a concrete one in which none occurs would equally qualify; here
the pausing run returns normally and ends unpaused. -/
theorem C3_witness :
    (hookThree.check_pause_condition stDemo (.ok "input")).hook.paused = false
    ∧ ∀ ih : UserInputHandler, (PauseHook.init ih).paused = false :=
  C3_single_pause_cycle hookThree stDemo (.ok "input") (by rfl) (by rfl)

/-- C4 counterexample: a concrete evaluate call in which a condition matches
and the input channel then fails. The call raises — and the `paused` flag is
left `true` after the call, because `handle_pause` resets `paused` only after
a successful `get_input` (there is no `try/finally`). This contradicts the
claim that the state machine "raises without leaving the paused flag
permanently true after the call". -/
theorem C4_counterexample :
    (hookOne.check_pause_condition stDemo (.error .channelError)).result
      = .error .channelError
    ∧ (hookOne.check_pause_condition stDemo (.error .channelError)).hook.paused
      = true := by
  refine ⟨rfl, rfl⟩

/-- C4 (amended): when an evaluate call raises (the input channel failed
after a condition matched), the error propagates unswallowed and the hook is
left exactly in the partial-pause state: `paused` stays `true` and
`user_input` keeps its previous value; `paused` is reset only by a later
evaluate call that completes a full pause cycle normally. -/
theorem C4_error_leaves_paused (h : PauseHook) (st : AgentState)
    (console : Except InputError String) (e : InputError)
    (herr : (h.check_pause_condition st console).result = .error e) :
    (h.check_pause_condition st console).hook.paused = true
    ∧ (h.check_pause_condition st console).hook.user_input = h.user_input := by
  have hh := checkFrom_error_hook st console h.pause_conditions h 0 e herr
  show (checkFrom h st console h.pause_conditions 0).hook.paused = true
    ∧ (checkFrom h st console h.pause_conditions 0).hook.user_input = h.user_input
  rw [hh]
  exact ⟨rfl, rfl⟩

/-- C4 witness: the amended claim at the concrete failing run. -/
theorem C4_witness :
    (hookOne.check_pause_condition stDemo (.error .channelError)).hook.paused = true
    ∧ (hookOne.check_pause_condition stDemo (.error .channelError)).hook.user_input
      = hookOne.user_input :=
  C4_error_leaves_paused hookOne stDemo (.error .channelError) .channelError (by rfl)

/-- C10: `check_pause_condition` never writes to the agent state and never
modifies the registered condition sequence or the input handler — its only
hook-state writes are `paused` and `user_input`; and the condition sequence
is mutated only by an explicit `add_pause_condition`, which appends the new
`(condition, message)` pair at the end. -/
theorem C10_frame :
    ∀ (h : PauseHook) (st : AgentState) (console : Except InputError String),
      (h.check_pause_condition st console).agent = st
      ∧ (h.check_pause_condition st console).hook.pause_conditions
          = h.pause_conditions
      ∧ (h.check_pause_condition st console).hook.input_handler = h.input_handler
      ∧ ∀ (c : AgentState → Bool) (m : String),
          (h.add_pause_condition c m).pause_conditions
            = h.pause_conditions ++ [⟨c, m⟩] :=
  fun h st console =>
    ⟨(checkFrom_frame st console h.pause_conditions h 0).1,
     (checkFrom_frame st console h.pause_conditions h 0).2.1,
     (checkFrom_frame st console h.pause_conditions h 0).2.2,
     fun _ _ => rfl⟩

/-! Claim C9: persistence round-trip -/

/-- Batch recording appends one event per call, in call order, with
`input_provided` the non-emptiness of each input. -/
theorem recordAll_history :
    ∀ (entries : List (String × String × String × ℚ)) (m : PauseManager),
      (recordAll m entries).pause_history
        = m.pause_history
          ++ entries.map (fun e => ⟨e.1, e.2.1, e.2.2.1 != "", e.2.2.2⟩)
  | [], m => by simp [recordAll]
  | (u, r, i, t) :: rest, m => by
    simp [recordAll, recordAll_history rest, PauseManager.record_pause]

/-- Decoding inverts encoding on a single pause event. -/
theorem eventOfJson_eventToJson (e : PauseEvent) :
    eventOfJson (eventToJson e) = some e := by
  cases e
  rfl

/-- Decoding inverts encoding on a list of pause events. -/
theorem decodeEvents_map :
    ∀ l : List PauseEvent, decodeEvents (l.map eventToJson) = some l
  | [] => rfl
  | e :: rest => by
    simp [decodeEvents, eventOfJson_eventToJson e, decodeEvents_map rest]

/-- C9: record N events (with the monotone event-loop clock supplying
non-decreasing timestamps), save the history, read the destination back:
`save_history` writes one top-level JSON array of N objects, and parsing it
recovers exactly the recorded events — url, reason and input_provided match
the corresponding record calls in original insertion order, and the
timestamps are non-decreasing. -/
theorem C9_roundtrip (entries : List (String × String × String × ℚ))
    (hts : List.Chain' (fun a b => a ≤ b) (entries.map (fun e => e.2.2.2))) :
    (∃ js : List Json,
      (recordAll PauseManager.init entries).save_history = Json.arr js
      ∧ js.length = entries.length)
    ∧ parseHistory ((recordAll PauseManager.init entries).save_history)
        = some ((recordAll PauseManager.init entries).pause_history)
    ∧ (recordAll PauseManager.init entries).pause_history.map
          PauseEvent.sansTimestamp
        = entries.map (fun e => (e.1, e.2.1, e.2.2.1 != ""))
    ∧ List.Chain' (fun a b => a ≤ b)
        ((recordAll PauseManager.init entries).pause_history.map
          (fun e => e.timestamp)) := by
  have hist : (recordAll PauseManager.init entries).pause_history
      = entries.map (fun e => ⟨e.1, e.2.1, e.2.2.1 != "", e.2.2.2⟩) := by
    rw [recordAll_history]
    rfl
  refine ⟨⟨(recordAll PauseManager.init entries).pause_history.map eventToJson,
      rfl, ?_⟩, decodeEvents_map _, ?_, ?_⟩
  · simp [hist]
  · simp [hist, List.map_map, PauseEvent.sansTimestamp, Function.comp]
  · simpa [hist, List.map_map, Function.comp] using hts

/-- C9 witness: two recorded events (timestamps 1 ≤ 2) round-trip through
`save_history`/`parseHistory` with matching fields in order. -/
theorem C9_witness :
    parseHistory ((recordAll PauseManager.init
        [("https://a.example/login", "login page", "tok3n", 1),
         ("https://b.example/pay", "payment form", "", 2)]).save_history)
      = some ((recordAll PauseManager.init
        [("https://a.example/login", "login page", "tok3n", 1),
         ("https://b.example/pay", "payment form", "", 2)]).pause_history)
    ∧ (recordAll PauseManager.init
        [("https://a.example/login", "login page", "tok3n", 1),
         ("https://b.example/pay", "payment form", "", 2)]).pause_history.map
          PauseEvent.sansTimestamp
      = [("https://a.example/login", "login page", true),
         ("https://b.example/pay", "payment form", false)] :=
  ⟨(C9_roundtrip
      [("https://a.example/login", "login page", "tok3n", 1),
       ("https://b.example/pay", "payment form", "", 2)]
      (List.Chain.cons (by decide) List.Chain.nil)).2.1,
   (C9_roundtrip
      [("https://a.example/login", "login page", "tok3n", 1),
       ("https://b.example/pay", "payment form", "", 2)]
      (List.Chain.cons (by decide) List.Chain.nil)).2.2.1⟩
